import Mathlib

/-!
Verification of the mesh-to-layered-contours slicing engine of the
Cardboard Slicer application.

The JavaScript source is shallowly embedded: JavaScript numbers are modelled
by exact rationals (ℚ), so that every definition is executable and every
comparison decidable.  Byte buffers are lists of naturals and the implicit
bounds checking of `DataView` accessors is modelled with `Option`.
-/

/-- A 3-D vertex, `{x, y, z}` in the source. -/
structure Point3 where
  x : ℚ
  y : ℚ
  z : ℚ
deriving DecidableEq, Inhabited

/-- A 2-D point produced by slicing, `{x, y}` in the source. -/
structure Point2 where
  x : ℚ
  y : ℚ
deriving DecidableEq, Inhabited

/-- A triangle of the soup: the three-element vertex array `[v1, v2, v3]`. -/
structure Triangle where
  v1 : Point3
  v2 : Point3
  v3 : Point3
deriving DecidableEq, Inhabited

/-- One intersection segment `{p1, p2}` produced by `intersectTriangleZ`. -/
structure Segment where
  p1 : Point2
  p2 : Point2
deriving DecidableEq, Inhabited

/-- The tolerance `1e-5` used both by the grazing test of `intersectTriangleZ`
and by the endpoint matching of `connectSegments`. -/
def EPSILON : ℚ := 1 / 100000

/-- Stable sort of the three vertices by ascending `z`: the result of
`[v1, v2, v3].sort((a, b) => a.z - b.z)` (JavaScript array sort is stable,
so vertices with equal `z` keep their original order). -/
def sortZ3 (v1 v2 v3 : Point3) : Point3 × Point3 × Point3 :=
  if v2.z ≤ v3.z then
    if v1.z ≤ v2.z then (v1, v2, v3)
    else if v1.z ≤ v3.z then (v2, v1, v3)
    else (v2, v3, v1)
  else
    if v1.z ≤ v3.z then (v1, v3, v2)
    else if v1.z ≤ v2.z then (v3, v1, v2)
    else (v3, v2, v1)

/-- The `interpolate` closure of `intersectTriangleZ`: the point of edge
`pA`–`pB` at height `zTarget`; when the edge is horizontal (`pB.z === pA.z`)
it returns `pA`'s projection without dividing. -/
def interpolate (pA pB : Point3) (zTarget : ℚ) : Point2 :=
  if pB.z = pA.z then ⟨pA.x, pA.y⟩
  else
    let t := (zTarget - pA.z) / (pB.z - pA.z)
    ⟨pA.x + t * (pB.x - pA.x), pA.y + t * (pB.y - pA.y)⟩

/-- The two candidate intersection points computed by `intersectTriangleZ`
after its early-return guards: `p1 = interpolate(pts[0], pts[2], z)` and
`p2 = z <= pts[1].z ? interpolate(pts[0], pts[1], z) : interpolate(pts[1], pts[2], z)`. -/
def planePoints (v1 v2 v3 : Point3) (z : ℚ) : Point2 × Point2 :=
  let s := sortZ3 v1 v2 v3
  (interpolate s.1 s.2.2 z,
   if z ≤ s.2.1.z then interpolate s.1 s.2.1 z else interpolate s.2.1 s.2.2 z)

/-- `intersectTriangleZ(v1, v2, v3, z)`: the 0-or-1 segment where the plane
at height `z` crosses the triangle. -/
def intersectTriangleZ (v1 v2 v3 : Point3) (z : ℚ) : Option Segment :=
  if z < (sortZ3 v1 v2 v3).1.z ∨ (sortZ3 v1 v2 v3).2.2.z < z then none
  else if z = (sortZ3 v1 v2 v3).1.z ∧ z = (sortZ3 v1 v2 v3).2.2.z then none
  else if |(planePoints v1 v2 v3 z).1.x - (planePoints v1 v2 v3 z).2.x| < EPSILON ∧
          |(planePoints v1 v2 v3 z).1.y - (planePoints v1 v2 v3 z).2.y| < EPSILON then none
  else some ⟨(planePoints v1 v2 v3 z).1, (planePoints v1 v2 v3 z).2⟩

/-- The minimum of the three vertex heights. -/
def minZ3 (v1 v2 v3 : Point3) : ℚ := min (min v1.z v2.z) v3.z

/-- The maximum of the three vertex heights. -/
def maxZ3 (v1 v2 v3 : Point3) : ℚ := max (max v1.z v2.z) v3.z

theorem sortZ3_fst_z (v1 v2 v3 : Point3) :
    (sortZ3 v1 v2 v3).1.z = minZ3 v1 v2 v3 := by
  unfold sortZ3 minZ3
  split_ifs with h1 h2 h3 h4 h5 <;>
    simp only [min_def] <;> split_ifs <;> first | rfl | linarith

theorem sortZ3_last_z (v1 v2 v3 : Point3) :
    (sortZ3 v1 v2 v3).2.2.z = maxZ3 v1 v2 v3 := by
  unfold sortZ3 maxZ3
  split_ifs with h1 h2 h3 h4 h5 <;>
    simp only [max_def] <;> split_ifs <;> first | rfl | linarith

/-- Squared distance `getDistSq` used by the stitcher in `connectSegments`. -/
def getDistSq (pA pB : Point2) : ℚ :=
  (pA.x - pB.x) ^ 2 + (pA.y - pB.y) ^ 2

/-- One pass of the inner `for` loop of `connectSegments`: scan the remaining
pool, in index order, for the first segment one of whose endpoints matches the
current tail or head (the four `else if` branches, in source order).  Returns
the point that extends the path, whether it extends at the head (`true`,
`unshift`) or at the tail (`false`, `push`), the matched segment, and the pool
with that segment spliced out. -/
def findSeg (head tail : Point2) : List Segment → Option (Point2 × Bool × Segment × List Segment)
  | [] => none
  | s :: rest =>
    if getDistSq s.p1 tail < EPSILON then some (s.p2, false, s, rest)
    else if getDistSq s.p2 tail < EPSILON then some (s.p1, false, s, rest)
    else if getDistSq s.p1 head < EPSILON then some (s.p2, true, s, rest)
    else if getDistSq s.p2 head < EPSILON then some (s.p1, true, s, rest)
    else
      match findSeg head tail rest with
      | none => none
      | some (p, atHead, m, rest2) => some (p, atHead, m, s :: rest2)

/-- The `while (changed)` loop of `connectSegments`: repeatedly extend the
current path with matching segments until a full scan finds none.  Each
iteration removes one segment from the pool, so `remaining.length` steps of
fuel are exactly enough: when the fuel is exhausted the pool is empty and the
loop would stop anyway.  Besides the final path and pool, the list of segments
consumed by this path is returned (in consumption order). -/
def extendPath : Nat → List Point2 → List Segment → List Segment →
    List Point2 × List Segment × List Segment
  | 0, path, remaining, consumed => (path, remaining, consumed)
  | fuel + 1, path, remaining, consumed =>
    match findSeg path.headI path.getLastI remaining with
    | none => (path, remaining, consumed)
    | some (p, atHead, m, rest) =>
      extendPath fuel (if atHead then p :: path else path ++ [p]) rest (consumed ++ [m])

/-- The outer `while (remaining.length > 0)` loop of `connectSegments`, with
fuel (each round consumes at least the seed segment, so `segs.length` rounds
suffice).  `remaining.pop()` takes the last element of the pool.  For each
finished path the returned triple records the emitted point list (with the
duplicate terminal point dropped when the loop closed), whether the
closing branch fired, and the segments the path consumed. -/
def stitchRounds : Nat → List Segment → List (List Point2 × Bool × List Segment)
  | 0, _ => []
  | fuel + 1, segs =>
    match segs.getLast? with
    | none => []
    | some seed =>
      let rem := segs.dropLast
      let r := extendPath rem.length (seed.p1 :: seed.p2 :: []) rem []
      if 2 < r.1.length ∧ getDistSq r.1.headI r.1.getLastI < EPSILON then
        (r.1.dropLast, true, seed :: r.2.2) :: stitchRounds fuel r.2.1
      else
        (r.1, false, seed :: r.2.2) :: stitchRounds fuel r.2.1

/-- The stitcher with its per-path bookkeeping (points, closed flag, consumed
segments). -/
def stitchAll (segs : List Segment) : List (List Point2 × Bool × List Segment) :=
  stitchRounds segs.length segs

/-- `connectSegments(segments)`: the list of stitched paths, in the order the
source pushes them. -/
def connectSegments (segs : List Segment) : List (List Point2) :=
  (stitchAll segs).map fun e => e.1

theorem findSeg_perm (head tail : Point2) :
    ∀ (l : List Segment) (p : Point2) (b : Bool) (m : Segment) (r : List Segment),
      findSeg head tail l = some (p, b, m, r) → List.Perm l (m :: r)
  | [], p, b, m, r => by intro h; simp [findSeg] at h
  | s :: rest, p, b, m, r => by
    intro h
    unfold findSeg at h
    split_ifs at h with h1 h2 h3 h4
    · obtain ⟨rfl, rfl, rfl, rfl⟩ := by simpa using h
      exact List.Perm.refl _
    · obtain ⟨rfl, rfl, rfl, rfl⟩ := by simpa using h
      exact List.Perm.refl _
    · obtain ⟨rfl, rfl, rfl, rfl⟩ := by simpa using h
      exact List.Perm.refl _
    · obtain ⟨rfl, rfl, rfl, rfl⟩ := by simpa using h
      exact List.Perm.refl _
    · revert h
      match hrec : findSeg head tail rest with
      | none => intro h; simp at h
      | some (p2, b2, m2, r2) =>
        intro h
        obtain ⟨rfl, rfl, rfl, rfl⟩ := by simpa using h
        have ih := findSeg_perm head tail rest p2 b2 m2 r2 hrec
        exact (ih.cons s).trans (List.Perm.swap m2 s r2)

theorem extendPath_perm :
    ∀ (fuel : Nat) (path : List Point2) (remaining consumed : List Segment),
      List.Perm ((extendPath fuel path remaining consumed).2.1 ++
                 (extendPath fuel path remaining consumed).2.2)
                (remaining ++ consumed)
  | 0, path, remaining, consumed => List.Perm.refl _
  | fuel + 1, path, remaining, consumed => by
    unfold extendPath
    match hrec : findSeg path.headI path.getLastI remaining with
    | none => exact List.Perm.refl _
    | some (p, atHead, m, rest) =>
      have hp : List.Perm remaining (m :: rest) := findSeg_perm _ _ _ _ _ _ _ hrec
      have ih := extendPath_perm fuel (if atHead then p :: path else path ++ [p]) rest
        (consumed ++ [m])
      refine ih.trans ?_
      have s1 : List.Perm (rest ++ (consumed ++ [m])) ([m] ++ (rest ++ consumed)) := by
        rw [← List.append_assoc]
        exact List.perm_append_comm
      have s2 : List.Perm ((m :: rest) ++ consumed) (remaining ++ consumed) :=
        hp.symm.append_right consumed
      exact s1.trans s2

theorem stitchRounds_consumed :
    ∀ (fuel : Nat) (segs : List Segment), segs.length ≤ fuel →
      List.Perm (((stitchRounds fuel segs).map fun e => e.2.2).flatten) segs
  | 0, segs => fun h => by
    have hnil : segs = [] := List.length_eq_zero.mp (Nat.le_zero.mp h)
    subst hnil
    simp [stitchRounds]
  | fuel + 1, segs => fun h => by
    rcases eq_or_ne segs [] with rfl | hne
    · simp [stitchRounds]
    · have hl : segs.getLast? = some (segs.getLast hne) := List.getLast?_eq_getLast segs hne
      have hsplit : segs.dropLast ++ [segs.getLast hne] = segs :=
        List.dropLast_append_getLast hne
      have hperm : List.Perm
          ((extendPath segs.dropLast.length
              ((segs.getLast hne).p1 :: (segs.getLast hne).p2 :: []) segs.dropLast []).2.1 ++
           (extendPath segs.dropLast.length
              ((segs.getLast hne).p1 :: (segs.getLast hne).p2 :: []) segs.dropLast []).2.2)
          segs.dropLast := by
        have hp := extendPath_perm segs.dropLast.length
          ((segs.getLast hne).p1 :: (segs.getLast hne).p2 :: []) segs.dropLast []
        rwa [List.append_nil] at hp
      have hlen2 : (extendPath segs.dropLast.length
            ((segs.getLast hne).p1 :: (segs.getLast hne).p2 :: []) segs.dropLast []).2.1.length +
          (extendPath segs.dropLast.length
            ((segs.getLast hne).p1 :: (segs.getLast hne).p2 :: []) segs.dropLast []).2.2.length =
          segs.dropLast.length := by
        have hle := hperm.length_eq
        simpa using hle
      have hpos : 0 < segs.length := List.length_pos.mpr hne
      have hdll : segs.dropLast.length = segs.length - 1 := by simp
      have hfuel : (extendPath segs.dropLast.length
          ((segs.getLast hne).p1 :: (segs.getLast hne).p2 :: []) segs.dropLast []).2.1.length ≤
          fuel := by omega
      have ih := stitchRounds_consumed fuel _ hfuel
      have houter : List.Perm (segs.getLast hne :: segs.dropLast) segs := by
        conv_rhs => rw [← hsplit]
        exact (List.perm_append_singleton _ _).symm
      have hinner : List.Perm
          ((extendPath segs.dropLast.length
              ((segs.getLast hne).p1 :: (segs.getLast hne).p2 :: []) segs.dropLast []).2.2 ++
           ((stitchRounds fuel (extendPath segs.dropLast.length
              ((segs.getLast hne).p1 :: (segs.getLast hne).p2 :: []) segs.dropLast []).2.1).map
              fun e => e.2.2).flatten)
          segs.dropLast :=
        ((List.Perm.append_left _ ih).trans List.perm_append_comm).trans hperm
      have key := (List.Perm.cons (segs.getLast hne) hinner).trans houter
      unfold stitchRounds
      simp only [hl]
      split_ifs <;> simpa using key

/-- C1: the stitcher consumes every input segment exactly once.  The
instrumented run `stitchAll` records, for each emitted path, the list of
segments that built it; joining those per-path lists gives back exactly the
input pool (as a multiset): no segment is duplicated, dropped, or shared
between two paths.  `connectSegments` is the projection of the same run onto
the emitted point lists. -/
theorem connectSegments_consumes_each_segment_once (segs : List Segment) :
    List.Perm (((stitchAll segs).map fun e => e.2.2).flatten) segs ∧
    connectSegments segs = (stitchAll segs).map fun e => e.1 :=
  ⟨stitchRounds_consumed segs.length segs le_rfl, rfl⟩

unseal Rat.add Rat.sub Rat.mul Rat.inv in
/-- C8: stitching the three segments of the unit right triangle yields exactly
one path; the closing branch fires (the path is closed) and the duplicate
terminal point is dropped, leaving exactly 3 points.  The consumed list shows
the seed `(0,1)-(0,0)` (popped from the end) followed by the two chained
segments. -/
theorem connectSegments_triangle_loop :
    connectSegments [⟨⟨0, 0⟩, ⟨1, 0⟩⟩, ⟨⟨1, 0⟩, ⟨0, 1⟩⟩, ⟨⟨0, 1⟩, ⟨0, 0⟩⟩] =
      [[⟨0, 1⟩, ⟨0, 0⟩, ⟨1, 0⟩]] ∧
    stitchAll [⟨⟨0, 0⟩, ⟨1, 0⟩⟩, ⟨⟨1, 0⟩, ⟨0, 1⟩⟩, ⟨⟨0, 1⟩, ⟨0, 0⟩⟩] =
      [([⟨0, 1⟩, ⟨0, 0⟩, ⟨1, 0⟩], true,
        [⟨⟨0, 1⟩, ⟨0, 0⟩⟩, ⟨⟨0, 0⟩, ⟨1, 0⟩⟩, ⟨⟨1, 0⟩, ⟨0, 1⟩⟩])] :=
  ⟨by decide, by decide⟩

/-- C9: the intersector returns `none` for a plane strictly below the lowest
vertex, strictly above the highest vertex, or containing the whole triangle
(all three vertex heights equal to `z`). -/
theorem intersectTriangleZ_none_outside (v1 v2 v3 : Point3) (z : ℚ)
    (h : z < minZ3 v1 v2 v3 ∨ maxZ3 v1 v2 v3 < z ∨ (v1.z = z ∧ v2.z = z ∧ v3.z = z)) :
    intersectTriangleZ v1 v2 v3 z = none := by
  unfold intersectTriangleZ
  rcases h with h | h | ⟨h1, h2, h3⟩
  · rw [if_pos (Or.inl (by rw [sortZ3_fst_z]; exact h))]
  · rw [if_pos (Or.inr (by rw [sortZ3_last_z]; exact h))]
  · have g1 : ¬(z < (sortZ3 v1 v2 v3).1.z ∨ (sortZ3 v1 v2 v3).2.2.z < z) := by
      rw [sortZ3_fst_z, sortZ3_last_z]
      unfold minZ3 maxZ3
      rw [h1, h2, h3]
      simp
    have g2 : z = (sortZ3 v1 v2 v3).1.z ∧ z = (sortZ3 v1 v2 v3).2.2.z := by
      rw [sortZ3_fst_z, sortZ3_last_z]
      unfold minZ3 maxZ3
      rw [h1, h2, h3]
      simp
    rw [if_neg g1, if_pos g2]

/-- Witness for the C9 theorem at a concrete input: a triangle in the plane
`z = 0` is missed by the plane `z = 5`. -/
theorem intersectTriangleZ_none_outside_witness :
    intersectTriangleZ ⟨0, 0, 0⟩ ⟨1, 0, 0⟩ ⟨0, 1, 0⟩ 5 = none :=
  intersectTriangleZ_none_outside ⟨0, 0, 0⟩ ⟨1, 0, 0⟩ ⟨0, 1, 0⟩ 5
    (Or.inr (Or.inl (by norm_num [maxZ3])))

unseal Rat.add Rat.sub Rat.mul Rat.inv in
/-- C2 counterexample: a sliver triangle whose vertex heights 0, 1, 2 strictly
span the plane `z = 1/2` (no vertex height equals `1/2`), yet
`intersectTriangleZ` returns `none`, because the two computed intersection
points are closer than the `1e-5` grazing tolerance.  This refutes the claim
that every strictly spanning triangle yields a segment. -/
theorem intersectTriangleZ_sliver_counterexample :
    minZ3 ⟨0, 0, 0⟩ ⟨1/1000000, 0, 1⟩ ⟨0, 0, 2⟩ < 1/2 ∧
    (1/2 : ℚ) < maxZ3 ⟨0, 0, 0⟩ ⟨1/1000000, 0, 1⟩ ⟨0, 0, 2⟩ ∧
    (Point3.mk 0 0 0).z ≠ 1/2 ∧ (Point3.mk (1/1000000) 0 1).z ≠ 1/2 ∧
    (Point3.mk 0 0 2).z ≠ 1/2 ∧
    intersectTriangleZ ⟨0, 0, 0⟩ ⟨1/1000000, 0, 1⟩ ⟨0, 0, 2⟩ (1/2) = none := by
  refine ⟨by decide, by decide, by decide, by decide, by decide, by decide⟩

/-- C2 as amended: for a triangle whose vertex heights strictly span `z`, and
whose two computed intersection points are not within the `1e-5` grazing
tolerance of each other, `intersectTriangleZ` returns exactly the segment of
those two points, and they are distinct. -/
theorem intersectTriangleZ_strict_span (v1 v2 v3 : Point3) (z : ℚ)
    (hmin : minZ3 v1 v2 v3 < z) (hmax : z < maxZ3 v1 v2 v3)
    (hfar : ¬(|(planePoints v1 v2 v3 z).1.x - (planePoints v1 v2 v3 z).2.x| < EPSILON ∧
              |(planePoints v1 v2 v3 z).1.y - (planePoints v1 v2 v3 z).2.y| < EPSILON)) :
    intersectTriangleZ v1 v2 v3 z =
      some ⟨(planePoints v1 v2 v3 z).1, (planePoints v1 v2 v3 z).2⟩ ∧
    (planePoints v1 v2 v3 z).1 ≠ (planePoints v1 v2 v3 z).2 := by
  constructor
  · have g1 : ¬(z < (sortZ3 v1 v2 v3).1.z ∨ (sortZ3 v1 v2 v3).2.2.z < z) := by
      rw [sortZ3_fst_z, sortZ3_last_z]
      push_neg
      exact ⟨le_of_lt hmin, le_of_lt hmax⟩
    have g2 : ¬(z = (sortZ3 v1 v2 v3).1.z ∧ z = (sortZ3 v1 v2 v3).2.2.z) := by
      rw [sortZ3_fst_z]
      rintro ⟨h1, h2⟩
      linarith
    unfold intersectTriangleZ
    rw [if_neg g1, if_neg g2, if_neg hfar]
  · intro he
    apply hfar
    rw [he]
    constructor <;> (rw [sub_self, abs_zero]; norm_num [EPSILON])

unseal Rat.add Rat.sub Rat.mul Rat.inv in
/-- Witness for the amended C2 theorem at a concrete spanning triangle. -/
theorem intersectTriangleZ_strict_span_witness :
    intersectTriangleZ ⟨0, 0, 0⟩ ⟨2, 2, 1⟩ ⟨0, 0, 2⟩ (1/2) =
      some ⟨(planePoints ⟨0, 0, 0⟩ ⟨2, 2, 1⟩ ⟨0, 0, 2⟩ (1/2)).1,
            (planePoints ⟨0, 0, 0⟩ ⟨2, 2, 1⟩ ⟨0, 0, 2⟩ (1/2)).2⟩ ∧
    (planePoints ⟨0, 0, 0⟩ ⟨2, 2, 1⟩ ⟨0, 0, 2⟩ (1/2)).1 ≠
      (planePoints ⟨0, 0, 0⟩ ⟨2, 2, 1⟩ ⟨0, 0, 2⟩ (1/2)).2 :=
  intersectTriangleZ_strict_span ⟨0, 0, 0⟩ ⟨2, 2, 1⟩ ⟨0, 0, 2⟩ (1/2)
    (by decide) (by decide) (by decide)

/-- Division guarded against a zero denominator, used to instrument the
interpolation: `none` marks a division by zero that IEEE arithmetic would
turn into a non-finite value. -/
def divQ (a b : ℚ) : Option ℚ :=
  if b = 0 then none else some (a / b)

/-- The interpolation with its division instrumented by `divQ`. -/
def interpolateSafe (pA pB : Point3) (zTarget : ℚ) : Option Point2 :=
  if pB.z = pA.z then some ⟨pA.x, pA.y⟩
  else (divQ (zTarget - pA.z) (pB.z - pA.z)).map fun t =>
    ⟨pA.x + t * (pB.x - pA.x), pA.y + t * (pB.y - pA.y)⟩

/-- `planePoints` with every division instrumented. -/
def planePointsSafe (v1 v2 v3 : Point3) (z : ℚ) : Option (Point2 × Point2) :=
  (interpolateSafe (sortZ3 v1 v2 v3).1 (sortZ3 v1 v2 v3).2.2 z).bind fun a =>
    (if z ≤ (sortZ3 v1 v2 v3).2.1.z then
       interpolateSafe (sortZ3 v1 v2 v3).1 (sortZ3 v1 v2 v3).2.1 z
     else interpolateSafe (sortZ3 v1 v2 v3).2.1 (sortZ3 v1 v2 v3).2.2 z).bind fun b =>
      some (a, b)

/-- `intersectTriangleZ` with every division instrumented: an outer `none`
would mean some evaluation divided by zero. -/
def intersectTriangleZSafe (v1 v2 v3 : Point3) (z : ℚ) : Option (Option Segment) :=
  if z < (sortZ3 v1 v2 v3).1.z ∨ (sortZ3 v1 v2 v3).2.2.z < z then some none
  else if z = (sortZ3 v1 v2 v3).1.z ∧ z = (sortZ3 v1 v2 v3).2.2.z then some none
  else (planePointsSafe v1 v2 v3 z).map fun ab =>
    if |ab.1.x - ab.2.x| < EPSILON ∧ |ab.1.y - ab.2.y| < EPSILON then none
    else some ⟨ab.1, ab.2⟩

theorem interpolateSafe_eq (pA pB : Point3) (z : ℚ) :
    interpolateSafe pA pB z = some (interpolate pA pB z) := by
  unfold interpolateSafe interpolate divQ
  by_cases h : pB.z = pA.z
  · simp [h]
  · have hne : pB.z - pA.z ≠ 0 := sub_ne_zero.mpr h
    simp [h, hne]

theorem planePointsSafe_eq (v1 v2 v3 : Point3) (z : ℚ) :
    planePointsSafe v1 v2 v3 z = some (planePoints v1 v2 v3 z) := by
  unfold planePointsSafe planePoints
  by_cases h : z ≤ (sortZ3 v1 v2 v3).2.1.z <;> simp [h, interpolateSafe_eq]

/-- C10: evaluating `intersectTriangleZ` never divides by zero.  An edge
selected for interpolation whose endpoints share a height short-circuits to
the first endpoint's `(x, y)`, and the instrumented evaluation (where any
division by zero would surface as an outer `none`) always succeeds and agrees
with the plain one — so with finite (rational) vertex coordinates every
returned segment has finite coordinates. -/
theorem intersectTriangleZ_no_division_by_zero :
    (∀ (pA pB : Point3) (z : ℚ), pA.z = pB.z → interpolate pA pB z = ⟨pA.x, pA.y⟩) ∧
    (∀ (v1 v2 v3 : Point3) (z : ℚ),
      intersectTriangleZSafe v1 v2 v3 z = some (intersectTriangleZ v1 v2 v3 z)) := by
  constructor
  · intro pA pB z h
    unfold interpolate
    rw [if_pos h.symm]
  · intro v1 v2 v3 z
    unfold intersectTriangleZSafe intersectTriangleZ
    split_ifs with h1 h2 h3
    · rfl
    · rfl
    · simp [planePointsSafe_eq, h3]
    · simp [planePointsSafe_eq, h3]

/-- Witness for the C10 theorem at concrete inputs: a horizontal edge
interpolates to its first endpoint, and a concrete intersection evaluates
without division by zero. -/
theorem intersectTriangleZ_no_division_by_zero_witness :
    interpolate ⟨1, 2, 5⟩ ⟨3, 4, 5⟩ 7 = ⟨1, 2⟩ ∧
    intersectTriangleZSafe ⟨0, 0, 0⟩ ⟨2, 2, 1⟩ ⟨0, 0, 2⟩ (1/2) =
      some (intersectTriangleZ ⟨0, 0, 0⟩ ⟨2, 2, 1⟩ ⟨0, 0, 2⟩ (1/2)) :=
  ⟨intersectTriangleZ_no_division_by_zero.1 ⟨1, 2, 5⟩ ⟨3, 4, 5⟩ 7 rfl,
   intersectTriangleZ_no_division_by_zero.2 ⟨0, 0, 0⟩ ⟨2, 2, 1⟩ ⟨0, 0, 2⟩ (1/2)⟩

/-- The vertex stream of a triangle list, in the `for (const tri of triangles)
for (const v of tri)` iteration order of `normalizeTriangles`. -/
def vertices : List Triangle → List Point3
  | [] => []
  | t :: ts => t.v1 :: t.v2 :: t.v3 :: vertices ts

/-- One `if (v < acc) acc = v` update of a running minimum.  `none` models the
`Infinity` sentinel the accumulator starts from. -/
def stepMin (acc : Option ℚ) (x : ℚ) : Option ℚ :=
  match acc with
  | none => some x
  | some m => if x < m then some x else some m

/-- One `if (v > acc) acc = v` update of a running maximum.  `none` models the
`-Infinity` sentinel. -/
def stepMax (acc : Option ℚ) (x : ℚ) : Option ℚ :=
  match acc with
  | none => some x
  | some m => if m < x then some x else some m

/-- The running minimum of `f` over all vertices of the mesh (the single
bounding-box pass of `normalizeTriangles`, one accumulator at a time). -/
def foldMin (f : Point3 → ℚ) (tris : List Triangle) : Option ℚ :=
  (vertices tris).foldl (fun acc v => stepMin acc (f v)) none

/-- The running maximum of `f` over all vertices of the mesh. -/
def foldMax (f : Point3 → ℚ) (tris : List Triangle) : Option ℚ :=
  (vertices tris).foldl (fun acc v => stepMax acc (f v)) none

/-- The affine map `v ↦ (v - c) * scale` applied componentwise, as in the
`triangles.map(tri => tri.map(v => ...))` body of `normalizeTriangles`. -/
def xformP (scale cX cY cZ : ℚ) (v : Point3) : Point3 :=
  ⟨(v.x - cX) * scale, (v.y - cY) * scale, (v.z - cZ) * scale⟩

/-- The same affine map applied to a triangle's three vertices. -/
def xformT (scale cX cY cZ : ℚ) (t : Triangle) : Triangle :=
  ⟨xformP scale cX cY cZ t.v1, xformP scale cX cY cZ t.v2, xformP scale cX cY cZ t.v3⟩

/-- The record `{triangles, width, length, height}` returned by
`normalizeTriangles`. -/
structure NormalizedMesh where
  triangles : List Triangle
  width : ℚ
  length : ℚ
  height : ℚ
deriving DecidableEq

/-- `normalizeTriangles(triangles, targetHeight)`.  For the empty mesh the
JavaScript bounds stay at the infinite sentinels and all arithmetic is
non-finite; the `getD 0` extraction (and ℚ's division-by-zero convention)
stands in for those non-finite values, and every claim about this function is
stated for non-empty meshes, where the two semantics agree. -/
def normalizeTriangles (tris : List Triangle) (targetHeight : ℚ) : NormalizedMesh :=
  let mnZ := (foldMin Point3.z tris).getD 0
  let mxZ := (foldMax Point3.z tris).getD 0
  let mnX := (foldMin Point3.x tris).getD 0
  let mxX := (foldMax Point3.x tris).getD 0
  let mnY := (foldMin Point3.y tris).getD 0
  let mxY := (foldMax Point3.y tris).getD 0
  let rawHeight := mxZ - mnZ
  let scale := targetHeight / rawHeight
  let cX := (mnX + mxX) / 2
  let cY := (mnY + mxY) / 2
  ⟨tris.map (xformT scale cX cY mnZ), (mxX - mnX) * scale, (mxY - mnY) * scale, targetHeight⟩

theorem foldl_min_max_aux (f : Point3 → ℚ) :
    ∀ (l : List Point3) (a b : ℚ), a ≤ b →
      ∃ a2 b2, l.foldl (fun acc v => stepMin acc (f v)) (some a) = some a2 ∧
        l.foldl (fun acc v => stepMax acc (f v)) (some b) = some b2 ∧ a2 ≤ b2
  | [], a, b, h => ⟨a, b, rfl, rfl, h⟩
  | v :: t, a, b, h => by
    have hstep : (if f v < a then f v else a) ≤ (if b < f v then f v else b) := by
      split_ifs <;> linarith
    obtain ⟨a2, b2, h1, h2, h3⟩ :=
      foldl_min_max_aux f t (if f v < a then f v else a) (if b < f v then f v else b) hstep
    refine ⟨a2, b2, ?_, ?_, h3⟩
    · simpa [stepMin, apply_ite Option.some] using h1
    · simpa [stepMax, apply_ite Option.some] using h2

theorem foldMin_le_foldMax (f : Point3 → ℚ) (tris : List Triangle) (hne : tris ≠ []) :
    ∃ a b, foldMin f tris = some a ∧ foldMax f tris = some b ∧ a ≤ b := by
  cases tris with
  | nil => exact absurd rfl hne
  | cons t ts =>
    obtain ⟨a, b, h1, h2, h3⟩ :=
      foldl_min_max_aux f (t.v2 :: t.v3 :: vertices ts) (f t.v1) (f t.v1) le_rfl
    exact ⟨a, b, by simpa [foldMin, vertices, stepMin] using h1,
      by simpa [foldMax, vertices, stepMax] using h2, h3⟩

/-- C3: for a non-empty mesh with positive raw Z-extent and positive target
height, normalization applies the single uniform scale
`targetHeight / (maxZ - minZ)` on all three axes with the X/Y bounding-box
center and `minZ` as the translation, the reported height is exactly the
target height, and the reported width and length are non-negative. -/
theorem normalizeTriangles_spec (tris : List Triangle) (H : ℚ) (hne : tris ≠ [])
    (hH : 0 < H)
    (hraw : (foldMin Point3.z tris).getD 0 < (foldMax Point3.z tris).getD 0) :
    (normalizeTriangles tris H).height = H ∧
    0 ≤ (normalizeTriangles tris H).width ∧
    0 ≤ (normalizeTriangles tris H).length ∧
    (normalizeTriangles tris H).triangles =
      tris.map (xformT
        (H / ((foldMax Point3.z tris).getD 0 - (foldMin Point3.z tris).getD 0))
        (((foldMin Point3.x tris).getD 0 + (foldMax Point3.x tris).getD 0) / 2)
        (((foldMin Point3.y tris).getD 0 + (foldMax Point3.y tris).getD 0) / 2)
        ((foldMin Point3.z tris).getD 0)) := by
  have hscale : 0 < H / ((foldMax Point3.z tris).getD 0 - (foldMin Point3.z tris).getD 0) :=
    div_pos hH (by linarith)
  refine ⟨rfl, ?_, ?_, rfl⟩
  · obtain ⟨a, b, ha, hb, hab⟩ := foldMin_le_foldMax Point3.x tris hne
    have hw : (normalizeTriangles tris H).width =
        ((foldMax Point3.x tris).getD 0 - (foldMin Point3.x tris).getD 0) *
          (H / ((foldMax Point3.z tris).getD 0 - (foldMin Point3.z tris).getD 0)) := rfl
    rw [hw, ha, hb, Option.getD_some, Option.getD_some]
    exact mul_nonneg (by linarith) hscale.le
  · obtain ⟨a, b, ha, hb, hab⟩ := foldMin_le_foldMax Point3.y tris hne
    have hl : (normalizeTriangles tris H).length =
        ((foldMax Point3.y tris).getD 0 - (foldMin Point3.y tris).getD 0) *
          (H / ((foldMax Point3.z tris).getD 0 - (foldMin Point3.z tris).getD 0)) := rfl
    rw [hl, ha, hb, Option.getD_some, Option.getD_some]
    exact mul_nonneg (by linarith) hscale.le

/-- A concrete one-triangle mesh with X, Y, Z extents 2, 2, 2. -/
def sampleTris : List Triangle :=
  [⟨⟨0, 0, 0⟩, ⟨2, 0, 1⟩, ⟨0, 2, 2⟩⟩]

/-- Witness for the C3 theorem at a concrete mesh and target height 10. -/
theorem normalizeTriangles_spec_witness :
    (normalizeTriangles sampleTris 10).height = 10 ∧
    0 ≤ (normalizeTriangles sampleTris 10).width ∧
    0 ≤ (normalizeTriangles sampleTris 10).length ∧
    (normalizeTriangles sampleTris 10).triangles =
      sampleTris.map (xformT
        (10 / ((foldMax Point3.z sampleTris).getD 0 - (foldMin Point3.z sampleTris).getD 0))
        (((foldMin Point3.x sampleTris).getD 0 + (foldMax Point3.x sampleTris).getD 0) / 2)
        (((foldMin Point3.y sampleTris).getD 0 + (foldMax Point3.y sampleTris).getD 0) / 2)
        ((foldMin Point3.z sampleTris).getD 0)) :=
  normalizeTriangles_spec sampleTris 10 (by decide) (by norm_num) (by decide)

unseal Rat.add Rat.sub Rat.mul Rat.inv in
/-- C5: the code contradicts the specified `DegenerateMeshError`.  On a mesh
whose bounding box has zero Z-extent, `normalizeTriangles` does not fail: it
still returns a `NormalizedMesh` record (in JavaScript the scale is the
non-finite `targetHeight / 0`; here ℚ's division-by-zero convention applies).
The degenerate extent and the successfully produced record are both
exhibited. -/
theorem normalizeTriangles_degenerate_returns :
    ((foldMax Point3.z [(⟨⟨0, 0, 0⟩, ⟨1, 0, 0⟩, ⟨0, 1, 0⟩⟩ : Triangle)]).getD 0 -
     (foldMin Point3.z [(⟨⟨0, 0, 0⟩, ⟨1, 0, 0⟩, ⟨0, 1, 0⟩⟩ : Triangle)]).getD 0 = 0) ∧
    (normalizeTriangles [(⟨⟨0, 0, 0⟩, ⟨1, 0, 0⟩, ⟨0, 1, 0⟩⟩ : Triangle)] 100).height = 100 :=
  ⟨by decide, by decide⟩

/-- The single failure the loader can signal; `DataView` accessors past the
end of the buffer throw, which the load never catches. -/
inductive STLError where
  | malformedInput
deriving DecidableEq

/-- A bounds-checked byte read: `none` models the exception a `DataView`
accessor throws on an out-of-range offset. -/
def getByte (buf : List Nat) (i : Nat) : Option Nat :=
  buf.get? i

/-- `dataView.getUint32(off, true)`: four bytes, little endian. -/
def getUint32LE (buf : List Nat) (off : Nat) : Option Nat :=
  (getByte buf off).bind fun b0 =>
    (getByte buf (off + 1)).bind fun b1 =>
      (getByte buf (off + 2)).bind fun b2 =>
        (getByte buf (off + 3)).map fun b3 =>
          b0 + 256 * (b1 + 256 * (b2 + 256 * b3))

/-- The value of an IEEE-754 single-precision bit pattern, as an exact
rational.  Exponent 255 encodes NaN or an infinity, which have no rational
counterpart; that case is mapped to 0 and is not exercised by any claim. -/
def decodeFloat32 (n : Nat) : ℚ :=
  let sign : ℚ := if n / 2 ^ 31 % 2 = 1 then -1 else 1
  let e : ℕ := n / 2 ^ 23 % 256
  let frac : ℕ := n % 2 ^ 23
  if e = 0 then sign * (frac : ℚ) / 2 ^ 149
  else if e = 255 then 0
  else sign * (2 ^ 23 + (frac : ℚ)) * (2 : ℚ) ^ ((e : ℤ) - 150)

/-- `dataView.getFloat32(off, true)`. -/
def getFloat32LE (buf : List Nat) (off : Nat) : Option ℚ :=
  (getUint32LE buf off).map decodeFloat32

/-- Three consecutive little-endian floats at `off`, as one vertex. -/
def getVertexLE (buf : List Nat) (off : Nat) : Option Point3 :=
  (getFloat32LE buf off).bind fun x =>
    (getFloat32LE buf (off + 4)).bind fun y =>
      (getFloat32LE buf (off + 8)).map fun z => ⟨x, y, z⟩

/-- One 50-byte record of the binary STL body at offset `off`: the 12 normal
bytes are skipped, the three vertices are read at `off+12`, `off+24`,
`off+36`, and the trailing 2 attribute bytes are never read. -/
def readTriangle (buf : List Nat) (off : Nat) : Option Triangle :=
  (getVertexLE buf (off + 12)).bind fun a =>
    (getVertexLE buf (off + 24)).bind fun b =>
      (getVertexLE buf (off + 36)).map fun c => ⟨a, b, c⟩

/-- The `for (let i = 0; i < numTriangles; i++)` loop of `parseSTLBinary`:
a thrown bounds exception abandons the whole parse, so no partial list
escapes. -/
def readTriangles (buf : List Nat) : Nat → Nat → Except STLError (List Triangle)
  | 0, _ => .ok []
  | n + 1, off =>
    match readTriangle buf off with
    | none => .error .malformedInput
    | some t =>
      match readTriangles buf n (off + 50) with
      | .error e => .error e
      | .ok ts => .ok (t :: ts)

/-- `parseSTLBinary(buffer)`: the declared count at byte 80, then that many
50-byte records starting at byte 84. -/
def parseSTLBinary (buf : List Nat) : Except STLError (List Triangle) :=
  match getUint32LE buf 80 with
  | none => .error .malformedInput
  | some numTriangles => readTriangles buf numTriangles 84

/-- A 132-byte binary STL buffer: zero header, declared triangle count 1,
then 48 bytes — a buffer truncated 2 bytes short of the declared
`84 + 1 × 50 = 134`. -/
def truncatedSTL : List Nat :=
  List.replicate 80 0 ++ [1, 0, 0, 0] ++ List.replicate 48 0

deriving instance DecidableEq for Except

set_option maxRecDepth 4000 in
unseal Rat.add Rat.sub Rat.mul Rat.inv in
/-- C4 failing input: the loader never reads the 2 trailing attribute bytes of
the last record, so this 132-byte buffer — truncated below the declared
`84 + count × 50 = 134` — parses successfully and returns the full triangle,
instead of failing with `MalformedInputError` as specified.  One byte fewer
(131) does make a vertex read go out of bounds, and only then does the load
fail. -/
theorem parseSTLBinary_truncated_accepted :
    truncatedSTL.length < 84 + 1 * 50 ∧
    parseSTLBinary truncatedSTL = Except.ok [⟨⟨0, 0, 0⟩, ⟨0, 0, 0⟩, ⟨0, 0, 0⟩⟩] ∧
    parseSTLBinary truncatedSTL.dropLast = Except.error STLError.malformedInput :=
  ⟨by decide, by decide, by decide⟩

/-- The two configuration modes of the slicing engine. -/
inductive SliceMode where
  | thickness
  | count
deriving DecidableEq

/-- The settings consumed by `generateSlices`. -/
structure SliceConfig where
  sliceMode : SliceMode
  layerThickness : ℚ
  layerCount : ℕ
  targetHeight : ℚ
deriving DecidableEq

/-- `actualThickness = sliceMode === 'thickness' ? layerThickness : targetHeight / layerCount`. -/
def actualThickness (c : SliceConfig) : ℚ :=
  match c.sliceMode with
  | .thickness => c.layerThickness
  | .count => c.targetHeight / c.layerCount

/-- `actualCount = sliceMode === 'count' ? layerCount : Math.floor(targetHeight / actualThickness)`
(a negative floor yields no loop iterations, hence `toNat`). -/
def actualCount (c : SliceConfig) : ℕ :=
  match c.sliceMode with
  | .thickness => (⌊c.targetHeight / c.layerThickness⌋).toNat
  | .count => c.layerCount

/-- The cutting height of layer `k`: `zStart + currentLayer * actualThickness`
with `zStart = actualThickness / 2`. -/
def layerZ (c : SliceConfig) (k : ℕ) : ℚ :=
  actualThickness c / 2 + k * actualThickness c

/-- The per-layer segment gathering loop: every triangle is intersected with
the layer plane and the non-null results are kept, in triangle order. -/
def layerSegments (tris : List Triangle) (z : ℚ) : List Segment :=
  tris.filterMap fun tri => intersectTriangleZ tri.v1 tri.v2 tri.v3 z

/-- `generateSlices`: layers `0 … actualCount-1` in ascending order, each the
stitched paths of its gathered segments. -/
def generateSlices (tris : List Triangle) (c : SliceConfig) : List (List (List Point2)) :=
  (List.range (actualCount c)).map fun k => connectSegments (layerSegments tris (layerZ c k))

/-- Thickness-mode configuration: height 100, thickness 4. -/
def cfgByThickness : SliceConfig :=
  ⟨.thickness, 4, 25, 100⟩

/-- Count-mode configuration: height 100, count 25.  Its `layerThickness`
field is junk (7) to exhibit that count mode never consults it. -/
def cfgByCount : SliceConfig :=
  ⟨.count, 7, 25, 100⟩

unseal Rat.add Rat.sub Rat.mul Rat.inv in
/-- C6: the two configuration modes are equivalent.  Height 100 with
thickness 4 derives 25 layers; height 100 with count 25 derives thickness 4;
the two configurations place every layer's cutting plane at the same height
and, on any identical mesh, produce identical slice output. -/
theorem generateSlices_mode_equiv :
    actualCount cfgByThickness = 25 ∧
    actualThickness cfgByCount = 4 ∧
    (∀ k : ℕ, layerZ cfgByThickness k = layerZ cfgByCount k) ∧
    (∀ tris : List Triangle, generateSlices tris cfgByThickness = generateSlices tris cfgByCount) := by
  have hth : actualThickness cfgByThickness = actualThickness cfgByCount := by decide
  have hcnt : actualCount cfgByThickness = actualCount cfgByCount := by decide
  have hz : ∀ k : ℕ, layerZ cfgByThickness k = layerZ cfgByCount k := by
    intro k
    unfold layerZ
    rw [hth]
  refine ⟨by decide, by decide, hz, ?_⟩
  intro tris
  unfold generateSlices
  rw [hcnt]
  simp only [hz]

/-- C7: the orchestrator slices layer `k` at
`z_k = actualThickness / 2 + k * actualThickness`, each layer being the
stitched paths of exactly the non-`none` intersections of every triangle with
that plane, and the output lists the layers for `k = 0 … actualCount - 1` in
ascending order. -/
theorem generateSlices_layer_structure (tris : List Triangle) (c : SliceConfig) (k : ℕ) :
    (generateSlices tris c).length = actualCount c ∧
    (generateSlices tris c)[k]? =
      (if k < actualCount c then
        some (connectSegments (tris.filterMap fun tri =>
          intersectTriangleZ tri.v1 tri.v2 tri.v3 (actualThickness c / 2 + k * actualThickness c)))
      else none) := by
  constructor
  · simp [generateSlices]
  · by_cases hk : k < actualCount c
    · rw [if_pos hk]
      simp [generateSlices, List.getElem?_map, List.getElem?_range hk, layerZ, layerSegments]
    · rw [if_neg hk]
      rw [List.getElem?_eq_none]
      simpa [generateSlices] using Nat.le_of_not_lt hk
